import Mathlib

/-!
Shallow embedding of `src/discord-rpc.cpp` (the core of the discord-rpc
client runtime): the bounded outbound send queue, the reconnect backoff
schedule, the inbound event classifier and its single-slot mailboxes, the
I/O tick `Discord_UpdateConnection`, the dispatcher `Discord_RunCallbacks`,
and the shutdown sequence.

Modelling conventions:
* `std::atomic_uint` counters are `Nat` reduced modulo `2^32` on every
  increment (`UINT_MOD`).  The decrement `--SendQueuePendingSends` is only
  executed under the loop guard `SendQueuePendingSends.load() != 0`, so it
  is modelled as truncated subtraction.
* The C `int` nonce counter is modelled as `Nat`; signed overflow of
  `Nonce++` is undefined behaviour in C++ and lies outside the model.
* The JSON documents produced by `Connection->Read` are modelled as a list
  of members (`JsonDoc`), each member a name paired with a `JsonVal`;
  `FindMember` is first-match lookup, exactly as in rapidjson.
* rapidjson accesses that are outside the library's contract (dereferencing
  a `MemberEnd()` iterator, `operator[]` on a missing member, `GetInt` /
  `GetString` on a value of the wrong type) are modelled as `Option`
  failure (`none`): the classifier returns `none` exactly when the C++
  performs such an out-of-contract access.
* Outbound frames are produced by the external encoder
  (`JsonWriteSubscribeCommand` / `JsonWriteRichPresenceObj`); they are
  modelled as an inductive `OutMsg` recording the arguments handed to the
  encoder, since the byte-level encoding is an external collaborator.
-/

/-- Constant `MessageQueueSize` from the source: capacity of the outbound ring. -/
def MessageQueueSize : Nat := 8

/-- Modulus of the `std::atomic_uint` counters (unsigned 32-bit wraparound,
`2 ^ 32`). -/
def UINT_MOD : Nat := 4294967296

/-- Modelled from the spec: `backoff.h` is not under `src/`.  The backoff
scheduler holds a floor, a ceiling and a current delay; `nextDelay()`
returns the current delay and then grows it (doubling) up to the ceiling;
`reset()` returns the current delay to the floor. -/
structure Backoff where
  minAmount : Nat
  maxAmount : Nat
  current : Nat
deriving Repr, DecidableEq

/-- Modelled from the spec: `reset()` returns the delay to the configured floor. -/
def Backoff.reset (b : Backoff) : Backoff :=
  { b with current := b.minAmount }

/-- Modelled from the spec: `nextDelay()` returns the current delay, then
grows it (doubling) capped at the configured ceiling. -/
def Backoff.nextDelay (b : Backoff) : Nat × Backoff :=
  (b.current, { b with current := min (b.current * 2) b.maxAmount })

/-- The global `Backoff ReconnectTimeMs(500, 60 * 1000)` in its initial state. -/
def ReconnectTimeMs : Backoff := { minAmount := 500, maxAmount := 60 * 1000, current := 500 }

/-- Advancing the backoff: the state after one `nextDelay()` call. -/
def Backoff.advance (b : Backoff) : Backoff := b.nextDelay.2

/-- The opaque rich-presence payload handed to the external encoder. -/
structure DiscordRichPresence where
  payload : Nat
deriving Repr, DecidableEq

/-- An outbound frame, recorded as the arguments handed to the external
encoder that serialized it into the queued slot's buffer. -/
inductive OutMsg where
  /-- Encoder call `JsonWriteSubscribeCommand(buffer, size, nonce, evtName)`. -/
  | subscribe (nonce : Nat) (evtName : String)
  /-- Encoder call `JsonWriteRichPresenceObj(buffer, size, nonce, pid, presence)`. -/
  | richPresence (nonce : Nat) (pid : Nat) (presence : DiscordRichPresence)
deriving Repr, DecidableEq

instance : Inhabited OutMsg := ⟨.subscribe 0 ""⟩

/-- The outbound queue: `SendQueue`, `SendQueueNextAdd`, `SendQueueNextSend`
and `SendQueuePendingSends` from the source.  Slots hold the last message
serialized into them (`QueuedMessage` contents); only indices below
`MessageQueueSize` are ever accessed, every access being through
`counter % MessageQueueSize` exactly as in the source; counters wrap at
`2^32`. -/
structure SendQueueState where
  slots : Nat → OutMsg
  nextAdd : Nat
  nextSend : Nat
  pendingSends : Nat

/-- The zero-initialized queue. -/
def SendQueueState.init : SendQueueState :=
  { slots := fun _ => default, nextAdd := 0, nextSend := 0, pendingSends := 0 }

/-- Source `SendQueueGetNextAddMessage`: bail with `none` when
`pendingSends >= MessageQueueSize`; otherwise claim slot
`SendQueueNextAdd++ % MessageQueueSize`. -/
def SendQueueGetNextAddMessage (q : SendQueueState) : Option Nat × SendQueueState :=
  if q.pendingSends ≥ MessageQueueSize then
    (none, q)
  else
    (some (q.nextAdd % MessageQueueSize),
     { q with nextAdd := (q.nextAdd + 1) % UINT_MOD })

/-- Source `SendQueueGetNextSendMessage`: return slot
`SendQueueNextSend++ % MessageQueueSize`. -/
def SendQueueGetNextSendMessage (q : SendQueueState) : OutMsg × SendQueueState :=
  (q.slots (q.nextSend % MessageQueueSize),
   { q with nextSend := (q.nextSend + 1) % UINT_MOD })

/-- Source `SendQueueCommitMessage`: `SendQueuePendingSends++`. -/
def SendQueueCommitMessage (q : SendQueueState) : SendQueueState :=
  { q with pendingSends := (q.pendingSends + 1) % UINT_MOD }

/-- The reserve / fill / commit sequence shared by `Discord_UpdatePresence`
and `RegisterForEvent`: returns the updated queue and whether the message
was accepted (`false` = dropped, per the saturation bail-out). -/
def sendQueueEnqueue (m : OutMsg) (q : SendQueueState) : SendQueueState × Bool :=
  match SendQueueGetNextAddMessage q with
  | (none, q') => (q', false)
  | (some idx, q') =>
      (SendQueueCommitMessage { q' with slots := Function.update q'.slots idx m }, true)

/-- The write pass of `Discord_UpdateConnection`:
`while (SendQueuePendingSends.load()) { write(SendQueueGetNextSendMessage()); --SendQueuePendingSends; }`.
Returns the final queue and the messages handed to `Connection->Write`, in
write order. -/
def drainWrites (q : SendQueueState) : SendQueueState × List OutMsg :=
  if h : q.pendingSends = 0 then
    (q, [])
  else
    let s := SendQueueGetNextSendMessage q
    let rest := drainWrites { s.2 with pendingSends := s.2.pendingSends - 1 }
    (rest.1, s.1 :: rest.2)
termination_by q.pendingSends
decreasing_by
  simp [SendQueueGetNextSendMessage]
  omega

/-- A JSON value, as the classifier sees it through rapidjson: only the
distinctions the code tests for (`IsString`, `GetString`, `GetInt`, object
member lookup) are modelled. -/
inductive JsonVal where
  | str (s : String)
  | num (n : Int)
  | obj (members : List (String × JsonVal))
  | other

/-- Test `IsString()`. -/
def JsonVal.isString : JsonVal → Bool
  | .str _ => true
  | _ => false

/-- Object member access `v[name]` / `FindMember`: first member with the
given name, `none` when absent or when `v` is not an object (both are
out-of-contract accesses when unchecked). -/
def JsonVal.member (name : String) : JsonVal → Option JsonVal
  | .obj ms => ms.lookup name
  | _ => none

/-- A decoded inbound document: the top-level members of the JSON object
produced by `Connection->Read`. -/
def JsonDoc := List (String × JsonVal)

/-- Lookup `message.FindMember(name)`: first top-level member with that name. -/
def JsonDoc.FindMember (msg : JsonDoc) (name : String) : Option JsonVal :=
  List.lookup name msg

/-- Modelled from the spec: `StringCopy` (from `serialization.h`, not under
`src/`) copies into a fixed-capacity buffer, truncating and always
sentinel-terminating; a buffer of capacity `cap` keeps at most `cap - 1`
characters of the source. -/
def StringCopy (cap : Nat) (src : String) : String :=
  src.take (cap - 1)

/-- The single-slot mailboxes and their payloads: the global
`WasJustConnected` … `WasSpectateGame` flags, the secrets and the error
fields from the source. -/
structure Inbox where
  wasJustConnected : Bool
  wasJustDisconnected : Bool
  gotErrorMessage : Bool
  wasPresenceRequested : Bool
  wasJoinGame : Bool
  wasSpectateGame : Bool
  joinGameSecret : String
  spectateGameSecret : String
  lastErrorCode : Int
  lastErrorMessage : String
  lastDisconnectErrorCode : Int
  lastDisconnectErrorMessage : String
deriving Repr, DecidableEq

/-- The zero-initialized mailboxes. -/
def Inbox.init : Inbox :=
  { wasJustConnected := false, wasJustDisconnected := false, gotErrorMessage := false
    wasPresenceRequested := false, wasJoinGame := false, wasSpectateGame := false
    joinGameSecret := "", spectateGameSecret := ""
    lastErrorCode := 0, lastErrorMessage := ""
    lastDisconnectErrorCode := 0, lastDisconnectErrorMessage := "" }

/-- The `else` arm of the classifier (nonce absent or not a string):
dispatch on the event name; `evtName == nullptr` means `continue`.
`none` models an out-of-contract rapidjson access (missing `data` member,
missing `secret` member, or `GetString` on a non-string). -/
def handleEvt (msg : JsonDoc) (evtName : Option String) (ib : Inbox) : Option Inbox :=
  match evtName with
  | none => some ib
  | some e =>
    if e = "PRESENCE_REQUESTED" then
      some { ib with wasPresenceRequested := true }
    else if e = "JOIN_GAME" then
      match msg.FindMember "data" with
      | none => none
      | some d =>
        match d.member "secret" with
        | some (.str s) => some { ib with joinGameSecret := StringCopy 256 s, wasJoinGame := true }
        | _ => none
    else if e = "SPECTATE_GAME" then
      match msg.FindMember "data" with
      | none => none
      | some d =>
        match d.member "secret" with
        | some (.str s) => some { ib with spectateGameSecret := StringCopy 256 s, wasSpectateGame := true }
        | _ => none
    else
      some ib

/-- The classifier body of the read loop in `Discord_UpdateConnection`:
extract `evtName`, test `nonce` for presence-and-stringness, and either
handle an `"ERROR"` response or dispatch by event name.  `none` models an
out-of-contract rapidjson access. -/
def handleMessage (msg : JsonDoc) (ib : Inbox) : Option Inbox :=
  let evtName : Option String :=
    match msg.FindMember "evt" with
    | some (.str s) => some s
    | _ => none
  let nonceIsString : Bool :=
    match msg.FindMember "nonce" with
    | some v => v.isString
    | none => false
  if nonceIsString then
    if evtName = some "ERROR" then
      match msg.FindMember "data" with
      | none => none
      | some d =>
        match d.member "code", d.member "message" with
        | some (.num c), some (.str m) =>
          some { ib with lastErrorCode := c, lastErrorMessage := StringCopy 256 m
                         gotErrorMessage := true }
        | _, _ => none
    else
      some ib
  else
    handleEvt msg evtName ib

/-- The read loop of `Discord_UpdateConnection`: classify each decoded
frame in arrival order until `Connection->Read` returns false. -/
def processInbound (msgs : List JsonDoc) (ib : Inbox) : Option Inbox :=
  match msgs with
  | [] => some ib
  | m :: rest =>
    match handleMessage m ib with
    | none => none
    | some ib' => processInbound rest ib'

/-- The caller-supplied handler table (`DiscordEventHandlers`): for the
model only registration matters, so each callback is a `Bool`
(`true` = non-null function pointer). -/
structure DiscordEventHandlers where
  ready : Bool
  disconnected : Bool
  errored : Bool
  presenceRequested : Bool
  joinGame : Bool
  spectateGame : Bool
deriving Repr, DecidableEq

/-- The handler table with every callback null. -/
def DiscordEventHandlers.none : DiscordEventHandlers :=
  { ready := false, disconnected := false, errored := false
    presenceRequested := false, joinGame := false, spectateGame := false }

/-- The mutable globals of `discord-rpc.cpp` that the core operations read
and write: mailboxes, outbound queue, backoff schedule, next connect time
(milliseconds), nonce counter, pid and the handler table. -/
structure CoreState where
  inbox : Inbox
  queue : SendQueueState
  reconnectTimeMs : Backoff
  nextConnect : Nat
  nonce : Nat
  pid : Nat
  handlers : DiscordEventHandlers

/-- The state right after `Discord_Initialize` with the given handlers and
pid: zeroed mailboxes and queue, fresh backoff, `Nonce = 1`,
`NextConnect = now`. -/
def CoreState.init (now : Nat) (pid : Nat) (h : DiscordEventHandlers) : CoreState :=
  { inbox := Inbox.init, queue := SendQueueState.init, reconnectTimeMs := ReconnectTimeMs
    nextConnect := now, nonce := 1, pid := pid, handlers := h }

/-- Source `UpdateReconnectTime()`: `NextConnect = now + ReconnectTimeMs.nextDelay()`. -/
def UpdateReconnectTime (now : Nat) (st : CoreState) : CoreState :=
  let d := st.reconnectTimeMs.nextDelay
  { st with nextConnect := now + d.1, reconnectTimeMs := d.2 }

/-- Source `RegisterForEvent(evtName)`: reserve a slot, serialize a subscribe
command carrying `Nonce++`, commit; returns whether the message was
enqueued. -/
def RegisterForEvent (evtName : String) (st : CoreState) : CoreState × Bool :=
  match SendQueueGetNextAddMessage st.queue with
  | (none, q') => ({ st with queue := q' }, false)
  | (some idx, q') =>
      let q'' := { q' with slots := Function.update q'.slots idx (.subscribe st.nonce evtName) }
      ({ st with queue := SendQueueCommitMessage q'', nonce := st.nonce + 1 }, true)

/-- Source `Discord_UpdatePresence(presence)`: reserve a slot, serialize the rich
presence object carrying `Nonce++` and `Pid`, commit; drops silently when
the reservation fails. -/
def Discord_UpdatePresence (presence : DiscordRichPresence) (st : CoreState) : CoreState :=
  match SendQueueGetNextAddMessage st.queue with
  | (none, q') => { st with queue := q' }
  | (some idx, q') =>
      let q'' := { q' with slots := Function.update q'.slots idx (.richPresence st.nonce st.pid presence) }
      { st with queue := SendQueueCommitMessage q'', nonce := st.nonce + 1 }

/-- The `Connection->onConnect` lambda installed by `Discord_Initialize`:
set the connected mailbox, reset the backoff, and subscribe to each event
kind whose handler is registered. -/
def Connection_onConnect (st : CoreState) : CoreState :=
  let st := { st with inbox := { st.inbox with wasJustConnected := true }
                      reconnectTimeMs := st.reconnectTimeMs.reset }
  let st := if st.handlers.presenceRequested then (RegisterForEvent "PRESENCE_REQUESTED" st).1 else st
  let st := if st.handlers.joinGame then (RegisterForEvent "JOIN_GAME" st).1 else st
  let st := if st.handlers.spectateGame then (RegisterForEvent "SPECTATE_GAME" st).1 else st
  st

/-- The `Connection->onDisconnect` lambda installed by `Discord_Initialize`:
record the error, set the disconnected mailbox, and recompute the next
connect time via `UpdateReconnectTime` (advancing, not resetting, the
backoff). -/
def Connection_onDisconnect (now : Nat) (err : Int) (message : String) (st : CoreState) : CoreState :=
  UpdateReconnectTime now
    { st with inbox := { st.inbox with lastDisconnectErrorCode := err
                                       lastDisconnectErrorMessage := StringCopy 256 message
                                       wasJustDisconnected := true } }

/-- The externally observable effects of one I/O tick. -/
structure TickEffects where
  openAttempt : Bool
  writes : List OutMsg
deriving Repr, DecidableEq

/-- Source `Discord_UpdateConnection()`: one I/O tick.  `now` is the current
clock, `isOpen` is what `Connection->IsOpen()` reports, `inbound` the
frames `Connection->Read` yields this tick.  Not-open: open the transport
only once `now` has reached `NextConnect`, advancing the reconnect time
first.  Open: run the read pass (classifier) over all inbound frames, then
the write pass draining the queue.  `none` models an out-of-contract
rapidjson access in the read pass. -/
def Discord_UpdateConnection (now : Nat) (isOpen : Bool) (inbound : List JsonDoc)
    (st : CoreState) : Option (CoreState × TickEffects) :=
  if !isOpen then
    if now ≥ st.nextConnect then
      some (UpdateReconnectTime now st, { openAttempt := true, writes := [] })
    else
      some (st, { openAttempt := false, writes := [] })
  else
    match processInbound inbound st.inbox with
    | none => none
    | some ib' =>
      let d := drainWrites st.queue
      some ({ st with inbox := ib', queue := d.1 }, { openAttempt := false, writes := d.2 })

/-- One callback invocation performed by `Discord_RunCallbacks`. -/
inductive CallbackCall where
  | errored (code : Int) (message : String)
  | disconnected (code : Int) (message : String)
  | ready
  | presenceRequested
  | joinGame (secret : String)
  | spectateGame (secret : String)
deriving Repr, DecidableEq

/-- Whether a callback invocation is a `joinGame` invocation. -/
def CallbackCall.isJoinGame : CallbackCall → Bool
  | .joinGame _ => true
  | _ => false

/-- Source `Discord_RunCallbacks()`: for each mailbox in source order — error,
disconnected, connected, presence-requested, join-game, spectate-game —
`exchange(false)` the flag and invoke the handler when the flag was set and
the handler is registered.  Returns the drained mailboxes and the
invocations in order. -/
def Discord_RunCallbacks (h : DiscordEventHandlers) (ib : Inbox) : Inbox × List CallbackCall :=
  let e := ib.gotErrorMessage
  let ib := { ib with gotErrorMessage := false }
  let calls := if e && h.errored then [CallbackCall.errored ib.lastErrorCode ib.lastErrorMessage] else []
  let d := ib.wasJustDisconnected
  let ib := { ib with wasJustDisconnected := false }
  let calls := calls ++ if d && h.disconnected then [CallbackCall.disconnected ib.lastDisconnectErrorCode ib.lastDisconnectErrorMessage] else []
  let c := ib.wasJustConnected
  let ib := { ib with wasJustConnected := false }
  let calls := calls ++ if c && h.ready then [CallbackCall.ready] else []
  let p := ib.wasPresenceRequested
  let ib := { ib with wasPresenceRequested := false }
  let calls := calls ++ if p && h.presenceRequested then [CallbackCall.presenceRequested] else []
  let j := ib.wasJoinGame
  let ib := { ib with wasJoinGame := false }
  let calls := calls ++ if j && h.joinGame then [CallbackCall.joinGame ib.joinGameSecret] else []
  let s := ib.wasSpectateGame
  let ib := { ib with wasSpectateGame := false }
  let calls := calls ++ if s && h.spectateGame then [CallbackCall.spectateGame ib.spectateGameSecret] else []
  (ib, calls)

/-- One observable step of `Discord_Shutdown`, in the order the statements
appear in the source. -/
inductive ShutdownStep where
  /-- Statement `Connection->onConnect = nullptr;`. -/
  | clearOnConnect
  /-- Statement `Connection->onDisconnect = nullptr;`. -/
  | clearOnDisconnect
  /-- Statement clearing the handler table. -/
  | clearHandlers
  /-- Statement `KeepRunning.exchange(false);`. -/
  | clearKeepRunning
  /-- Statement `SignalIOActivity();`. -/
  | signalIOActivity
  /-- Statement `IoThread.join();`. -/
  | joinIoThread
  /-- Statement `RpcConnection::Destroy(Connection);`. -/
  | destroyConnection
deriving Repr, DecidableEq, BEq

/-- Source `Discord_Shutdown()`: the sequence of its statements in program order
(the `DISCORD_DISABLE_IO_THREAD` guard is off, i.e. managed mode). -/
def Discord_Shutdown : List ShutdownStep :=
  [.clearOnConnect, .clearOnDisconnect, .clearHandlers,
   .clearKeepRunning, .signalIOActivity, .joinIoThread, .destroyConnection]

/-- One producer-side enqueue operation: a `Discord_UpdatePresence` call or
a subscribe request issued through `RegisterForEvent`. -/
inductive EnqueueOp where
  | presence (p : DiscordRichPresence)
  | subscribeEvt (evtName : String)
deriving Repr, DecidableEq

/-- Run one enqueue operation; the `Bool` records whether the reservation
succeeded (`RegisterForEvent`'s return value; for `Discord_UpdatePresence`,
whether `SendQueueGetNextAddMessage` returned a slot). -/
def doEnqueue (op : EnqueueOp) (st : CoreState) : CoreState × Bool :=
  match op with
  | .subscribeEvt e => RegisterForEvent e st
  | .presence p =>
      (Discord_UpdatePresence p st, decide (st.queue.pendingSends < MessageQueueSize))

/-- Run a sequence of enqueue operations with no intervening drain,
collecting each operation's success flag. -/
def runEnqueues : List EnqueueOp → CoreState → CoreState × List Bool
  | [], st => (st, [])
  | op :: rest, st =>
    let r := doEnqueue op st
    let rr := runEnqueues rest r.1
    (rr.1, r.2 :: rr.2)

lemma doEnqueue_queue (op : EnqueueOp) (st : CoreState) :
    (doEnqueue op st).1.queue.pendingSends
      = (if st.queue.pendingSends < MessageQueueSize
         then (st.queue.pendingSends + 1) % UINT_MOD else st.queue.pendingSends)
    ∧ (doEnqueue op st).2 = decide (st.queue.pendingSends < MessageQueueSize) := by
  cases op <;>
    simp only [doEnqueue, RegisterForEvent, Discord_UpdatePresence,
      SendQueueGetNextAddMessage, SendQueueCommitMessage] <;>
    rcases Nat.lt_or_ge st.queue.pendingSends MessageQueueSize with h | h <;>
    simp [Nat.not_le.2 h, Nat.not_lt.2 h, h, Nat.not_lt_of_le h]

lemma doEnqueue_pending (op : EnqueueOp) (st : CoreState) :
    (doEnqueue op st).1.queue.pendingSends
      = (if st.queue.pendingSends < MessageQueueSize
         then st.queue.pendingSends + 1 else st.queue.pendingSends) := by
  rw [(doEnqueue_queue op st).1]
  split
  · next h =>
    apply Nat.mod_eq_of_lt
    simp only [MessageQueueSize] at h
    simp only [UINT_MOD]
    omega
  · rfl

lemma runEnqueues_spec (ops : List EnqueueOp) (st : CoreState)
    (hle : st.queue.pendingSends ≤ MessageQueueSize) :
    (runEnqueues ops st).1.queue.pendingSends
        = min (st.queue.pendingSends + ops.length) MessageQueueSize
    ∧ (runEnqueues ops st).2
        = (List.range ops.length).map
            (fun i => decide (st.queue.pendingSends + i < MessageQueueSize)) := by
  induction ops generalizing st with
  | nil =>
    refine ⟨?_, by simp [runEnqueues]⟩
    simp only [runEnqueues, List.length_nil, Nat.add_zero]
    exact (Nat.min_eq_left hle).symm
  | cons op rest ih =>
    have hp := doEnqueue_pending op st
    have hle1 : (doEnqueue op st).1.queue.pendingSends ≤ MessageQueueSize := by
      rw [hp]; split <;> omega
    have ih' := ih (doEnqueue op st).1 hle1
    refine ⟨?_, ?_⟩
    · simp only [runEnqueues, ih'.1, hp, List.length_cons]
      split <;> omega
    · simp only [runEnqueues, ih'.2, (doEnqueue_queue op st).2, List.length_cons,
        List.range_succ_eq_map, List.map_cons, List.map_map]
      refine congrArg₂ List.cons (by simp) ?_
      apply List.map_congr_left
      intro i _
      simp only [Function.comp_apply, hp, decide_eq_decide]
      split <;> omega

/-- C1: for every sequence of enqueue operations (`Discord_UpdatePresence`
or subscribe requests via `RegisterForEvent`) with no intervening drain by
the I/O tick, exactly the first `MessageQueueSize` (8) reservations succeed
and every subsequent reservation fails (`SendQueueGetNextAddMessage`
returns no slot, the message is dropped), and `pendingSends` never exceeds
8 at any point of the sequence. -/
theorem c1_queue_backpressure (ops : List EnqueueOp) (st : CoreState)
    (h0 : st.queue.pendingSends = 0) :
    (runEnqueues ops st).2
        = (List.range ops.length).map (fun i => decide (i < MessageQueueSize))
    ∧ (runEnqueues ops st).1.queue.pendingSends = min ops.length MessageQueueSize
    ∧ ∀ k, (runEnqueues (ops.take k) st).1.queue.pendingSends ≤ MessageQueueSize := by
  have h := runEnqueues_spec ops st (by omega)
  refine ⟨by simpa [h0] using h.2, by simpa [h0] using h.1, ?_⟩
  intro k
  have hk := runEnqueues_spec (ops.take k) st (by omega)
  rw [hk.1]
  omega

/-- Witness for C1 at ten `Discord_UpdatePresence` calls on the freshly
initialized state: the first eight succeed, the ninth and tenth fail, and
`pendingSends` ends (and stays) at 8. -/
theorem c1_queue_backpressure_witness :
    (runEnqueues (List.replicate 10 (EnqueueOp.presence ⟨0⟩))
        (CoreState.init 0 0 DiscordEventHandlers.none)).2
      = [true, true, true, true, true, true, true, true, false, false]
    ∧ (runEnqueues (List.replicate 10 (EnqueueOp.presence ⟨0⟩))
        (CoreState.init 0 0 DiscordEventHandlers.none)).1.queue.pendingSends = 8
    ∧ (runEnqueues ((List.replicate 10 (EnqueueOp.presence ⟨0⟩)).take 9)
        (CoreState.init 0 0 DiscordEventHandlers.none)).1.queue.pendingSends ≤ MessageQueueSize := by
  have h := c1_queue_backpressure (List.replicate 10 (EnqueueOp.presence ⟨0⟩))
    (CoreState.init 0 0 DiscordEventHandlers.none) rfl
  exact ⟨h.1.trans (by decide), h.2.1.trans (by decide), h.2.2 9⟩

/-- A sequence of producer enqueues (reserve / fill / commit) with no
intervening drain, at the queue level. -/
def enqueueAll (msgs : List OutMsg) (q : SendQueueState) : SendQueueState :=
  msgs.foldl (fun q m => (sendQueueEnqueue m q).1) q

lemma mod8_of_modW (a i : Nat) :
    (a % UINT_MOD + i) % MessageQueueSize = (a + i) % MessageQueueSize := by
  simp only [UINT_MOD, MessageQueueSize]
  omega

lemma sendQueueEnqueue_succ (m : OutMsg) (q : SendQueueState)
    (h : q.pendingSends < MessageQueueSize) :
    (sendQueueEnqueue m q).1
      = { slots := Function.update q.slots (q.nextAdd % MessageQueueSize) m
          nextAdd := (q.nextAdd + 1) % UINT_MOD
          nextSend := q.nextSend
          pendingSends := q.pendingSends + 1 } := by
  simp only [sendQueueEnqueue, SendQueueGetNextAddMessage, if_neg (Nat.not_le.2 h),
    SendQueueCommitMessage]
  congr 1
  apply Nat.mod_eq_of_lt
  simp only [MessageQueueSize] at h
  simp only [UINT_MOD]
  omega

lemma enqueueAll_spec (msgs : List OutMsg) (q : SendQueueState)
    (hcap : q.pendingSends + msgs.length ≤ MessageQueueSize)
    (hA : q.nextAdd < UINT_MOD) :
    (enqueueAll msgs q).pendingSends = q.pendingSends + msgs.length
    ∧ (enqueueAll msgs q).nextSend = q.nextSend
    ∧ (enqueueAll msgs q).nextAdd = (q.nextAdd + msgs.length) % UINT_MOD
    ∧ (∀ i, (hi : i < msgs.length) →
        (enqueueAll msgs q).slots ((q.nextAdd + i) % MessageQueueSize) = msgs.get ⟨i, hi⟩)
    ∧ (∀ j, (∀ i, i < msgs.length → j ≠ (q.nextAdd + i) % MessageQueueSize) →
        (enqueueAll msgs q).slots j = q.slots j) := by
  induction msgs generalizing q with
  | nil =>
    refine ⟨by simp [enqueueAll], by simp [enqueueAll], ?_, by simp, by simp [enqueueAll]⟩
    simp only [enqueueAll, List.foldl_nil, List.length_nil, Nat.add_zero]
    exact (Nat.mod_eq_of_lt hA).symm
  | cons m rest ih =>
    have hlt : q.pendingSends < MessageQueueSize := by
      simp only [List.length_cons] at hcap; omega
    have hstep := sendQueueEnqueue_succ m q hlt
    have hfold : enqueueAll (m :: rest) q = enqueueAll rest (sendQueueEnqueue m q).1 := by
      simp [enqueueAll]
    set q1 : SendQueueState :=
      { slots := Function.update q.slots (q.nextAdd % MessageQueueSize) m
        nextAdd := (q.nextAdd + 1) % UINT_MOD
        nextSend := q.nextSend
        pendingSends := q.pendingSends + 1 } with hq1
    rw [hstep] at hfold
    have hcap1 : q1.pendingSends + rest.length ≤ MessageQueueSize := by
      simp only [hq1, List.length_cons] at hcap ⊢; omega
    have hA1 : q1.nextAdd < UINT_MOD := by
      simp only [hq1]
      exact Nat.mod_lt _ (by simp [UINT_MOD])
    have hrlen : rest.length ≤ MessageQueueSize - 1 := by
      simp only [List.length_cons] at hcap; omega
    obtain ⟨ihp, ihs, iha, ihw, ihpre⟩ := ih q1 hcap1 hA1
    have hidx : ∀ i : Nat, (q1.nextAdd + i) % MessageQueueSize
        = (q.nextAdd + (i + 1)) % MessageQueueSize := by
      intro i
      simp only [hq1]
      rw [mod8_of_modW]
      congr 1
      omega
    refine ⟨?_, ?_, ?_, ?_, ?_⟩
    · rw [hfold, ihp]; simp only [hq1, List.length_cons]; omega
    · rw [hfold, ihs]
    · rw [hfold, iha]
      simp only [hq1, List.length_cons]
      rw [Nat.mod_add_mod]
      congr 1
      omega
    · intro i hi
      rw [hfold]
      match i with
      | 0 =>
        rw [ihpre]
        · simp only [hq1, Nat.add_zero, Function.update_same]
          rfl
        · intro i' hi'
          rw [hidx i']
          simp only [MessageQueueSize, UINT_MOD] at hrlen ⊢
          omega
      | Nat.succ i' =>
        have hi' : i' < rest.length := by
          simp only [List.length_cons] at hi; omega
        have := ihw i' hi'
        rw [hidx i'] at this
        simpa using this
    · intro j hj
      rw [hfold, ihpre]
      · simp only [hq1]
        apply Function.update_noteq
        have := hj 0 (by simp)
        simpa using this
      · intro i' hi'
        rw [hidx i']
        exact hj (i' + 1) (by simp only [List.length_cons]; omega)

lemma drainWrites_cons (q : SendQueueState) (h : ¬ q.pendingSends = 0) :
    drainWrites q
      = ((drainWrites { q with nextSend := (q.nextSend + 1) % UINT_MOD
                               pendingSends := q.pendingSends - 1 }).1,
         q.slots (q.nextSend % MessageQueueSize)
           :: (drainWrites { q with nextSend := (q.nextSend + 1) % UINT_MOD
                                    pendingSends := q.pendingSends - 1 }).2) := by
  rw [drainWrites, dif_neg h]
  rfl

lemma drainWrites_spec (L : List OutMsg) (q : SendQueueState)
    (hp : q.pendingSends = L.length)
    (hS : q.nextSend < UINT_MOD)
    (hslots : ∀ i, (hi : i < L.length) →
        q.slots ((q.nextSend + i) % MessageQueueSize) = L.get ⟨i, hi⟩) :
    (drainWrites q).2 = L
    ∧ (drainWrites q).1.pendingSends = 0
    ∧ (drainWrites q).1.nextSend = (q.nextSend + L.length) % UINT_MOD
    ∧ (drainWrites q).1.nextAdd = q.nextAdd
    ∧ (drainWrites q).1.slots = q.slots := by
  induction L generalizing q with
  | nil =>
    have h0 : q.pendingSends = 0 := by simpa using hp
    rw [drainWrites, dif_pos h0]
    exact ⟨rfl, h0, by simpa using (Nat.mod_eq_of_lt hS).symm, rfl, rfl⟩
  | cons m rest ih =>
    have hne : ¬ q.pendingSends = 0 := by simp [hp]
    rw [drainWrites_cons q hne]
    set q1 : SendQueueState :=
      { q with nextSend := (q.nextSend + 1) % UINT_MOD
               pendingSends := q.pendingSends - 1 } with hq1
    have hp1 : q1.pendingSends = rest.length := by
      simp only [hq1, hp, List.length_cons]; omega
    have hS1 : q1.nextSend < UINT_MOD := Nat.mod_lt _ (by simp [UINT_MOD])
    have hslots1 : ∀ i, (hi : i < rest.length) →
        q1.slots ((q1.nextSend + i) % MessageQueueSize) = rest.get ⟨i, hi⟩ := by
      intro i hi
      have := hslots (i + 1) (by simp only [List.length_cons]; omega)
      simp only [hq1]
      rw [mod8_of_modW]
      have harg : (q.nextSend + 1 + i) % MessageQueueSize
          = (q.nextSend + (i + 1)) % MessageQueueSize := by
        congr 1; omega
      rw [harg]
      simpa using this
    obtain ⟨ihL, ihp, ihs, iha, ihsl⟩ := ih q1 hp1 hS1 hslots1
    have hm : q.slots (q.nextSend % MessageQueueSize) = m := by
      simpa using hslots 0 (by simp)
    refine ⟨?_, ihp, ?_, iha, ihsl⟩
    · rw [ihL, hm]
    · rw [ihs]
      simp only [hq1, List.length_cons, Nat.mod_add_mod]
      congr 1
      omega

/-- C2: for every sequence of successfully enqueued messages (single
producer, single consumer), the I/O tick's write pass hands the messages to
`Connection->Write` in exactly the order in which they were enqueued
(strict FIFO by slot order): starting from a drained, in-sync queue,
enqueuing at most `MessageQueueSize` messages and then running an open-tick
with no inbound frames writes exactly that message list. -/
theorem c2_fifo_order (msgs : List OutMsg) (st : CoreState) (now : Nat)
    (h0 : st.queue.pendingSends = 0)
    (hsync : st.queue.nextAdd = st.queue.nextSend)
    (hA : st.queue.nextAdd < UINT_MOD)
    (hlen : msgs.length ≤ MessageQueueSize) :
    (Discord_UpdateConnection now true [] { st with queue := enqueueAll msgs st.queue }).map
        (fun r => r.2.writes) = some msgs := by
  obtain ⟨hp, hs, ha, hw, _⟩ := enqueueAll_spec msgs st.queue (by omega) hA
  have hS : (enqueueAll msgs st.queue).nextSend < UINT_MOD := by
    rw [hs, ← hsync]; exact hA
  have hdr := drainWrites_spec msgs (enqueueAll msgs st.queue)
      (by rw [hp, h0, Nat.zero_add]) hS
      (by intro i hi
          rw [hs, ← hsync]
          exact hw i hi)
  simp only [Discord_UpdateConnection, Bool.not_true, Bool.false_eq_true, if_false,
    processInbound, Option.map_some']
  exact congrArg some hdr.1

/-- Witness for C2: three concrete messages enqueued on the fresh queue are
written back in exactly that order by the next open tick. -/
theorem c2_fifo_order_witness :
    (Discord_UpdateConnection 0 true []
        { CoreState.init 0 7 DiscordEventHandlers.none with
            queue := enqueueAll
              [OutMsg.subscribe 1 "X", OutMsg.richPresence 2 7 ⟨5⟩, OutMsg.subscribe 3 "Y"]
              (CoreState.init 0 7 DiscordEventHandlers.none).queue }).map
        (fun r => r.2.writes)
      = some [OutMsg.subscribe 1 "X", OutMsg.richPresence 2 7 ⟨5⟩, OutMsg.subscribe 3 "Y"] :=
  c2_fifo_order [OutMsg.subscribe 1 "X", OutMsg.richPresence 2 7 ⟨5⟩, OutMsg.subscribe 3 "Y"]
    (CoreState.init 0 7 DiscordEventHandlers.none) 0 rfl rfl (by decide) (by decide)

/-- The backoff state after `n` successive `nextDelay()` calls with no
intervening `reset()`. -/
def Backoff.afterCalls (b : Backoff) : Nat → Backoff
  | 0 => b
  | n + 1 => (b.afterCalls n).advance

lemma reconnect_afterCalls_invariant (n : Nat) :
    (ReconnectTimeMs.afterCalls n).minAmount = 500
    ∧ (ReconnectTimeMs.afterCalls n).maxAmount = 60000
    ∧ 500 ≤ (ReconnectTimeMs.afterCalls n).current
    ∧ (ReconnectTimeMs.afterCalls n).current ≤ 60000 := by
  induction n with
  | zero =>
    exact ⟨rfl, rfl, by simp [Backoff.afterCalls, ReconnectTimeMs],
      by simp [Backoff.afterCalls, ReconnectTimeMs]⟩
  | succ n ih =>
    obtain ⟨h1, h2, h3, h4⟩ := ih
    refine ⟨h1, h2, ?_, ?_⟩ <;>
      simp only [Backoff.afterCalls, Backoff.advance, Backoff.nextDelay, h2] <;>
      omega

/-- C3: for the backoff scheduler constructed with floor 500 and ceiling
60000 (`ReconnectTimeMs`), successive `nextDelay()` calls without an
intervening `reset()` return a non-decreasing sequence of values, each
bounded by 60000, and a `reset()` at any point followed by `nextDelay()`
returns 500. -/
theorem c3_backoff_monotone (n m : Nat) :
    ((ReconnectTimeMs.afterCalls n).nextDelay).1
        ≤ ((ReconnectTimeMs.afterCalls (n + 1)).nextDelay).1
    ∧ ((ReconnectTimeMs.afterCalls n).nextDelay).1 ≤ 60000
    ∧ (((ReconnectTimeMs.afterCalls m).reset).nextDelay).1 = 500 := by
  obtain ⟨h1, h2, h3, h4⟩ := reconnect_afterCalls_invariant n
  obtain ⟨g1, _, _, _⟩ := reconnect_afterCalls_invariant m
  refine ⟨?_, ?_, ?_⟩
  · simp only [Backoff.afterCalls, Backoff.advance, Backoff.nextDelay, h2]
    omega
  · simpa [Backoff.nextDelay] using h4
  · simp [Backoff.reset, Backoff.nextDelay, g1]

/-- A well-formed `JOIN_GAME` dispatch frame carrying the given secret. -/
def joinGameMsg (secret : String) : JsonDoc :=
  [("evt", JsonVal.str "JOIN_GAME"), ("data", JsonVal.obj [("secret", JsonVal.str secret)])]

lemma handleMessage_join (s : String) (ib : Inbox) :
    handleMessage (joinGameMsg s) ib
      = some { ib with joinGameSecret := StringCopy 256 s, wasJoinGame := true } := by
  rfl

lemma runCallbacks_spec (h : DiscordEventHandlers) (ib : Inbox) :
    Discord_RunCallbacks h ib
      = ({ ib with gotErrorMessage := false, wasJustDisconnected := false
                   wasJustConnected := false, wasPresenceRequested := false
                   wasJoinGame := false, wasSpectateGame := false },
         (if ib.gotErrorMessage && h.errored
            then [CallbackCall.errored ib.lastErrorCode ib.lastErrorMessage] else [])
         ++ (if ib.wasJustDisconnected && h.disconnected
            then [CallbackCall.disconnected ib.lastDisconnectErrorCode ib.lastDisconnectErrorMessage] else [])
         ++ (if ib.wasJustConnected && h.ready then [CallbackCall.ready] else [])
         ++ (if ib.wasPresenceRequested && h.presenceRequested
            then [CallbackCall.presenceRequested] else [])
         ++ (if ib.wasJoinGame && h.joinGame
            then [CallbackCall.joinGame ib.joinGameSecret] else [])
         ++ (if ib.wasSpectateGame && h.spectateGame
            then [CallbackCall.spectateGame ib.spectateGameSecret] else [])) := by
  rfl

set_option maxRecDepth 100000 in
/-- C4: if the classifier processes two `JOIN_GAME` frames carrying secrets
"A" then "B" before a single `Discord_RunCallbacks` call, and a `joinGame`
handler is registered, that dispatch call invokes the `joinGame` callback
exactly once, with secret "B"; the first occurrence is collapsed away. -/
theorem c4_mailbox_collapse (ib : Inbox) (h : DiscordEventHandlers)
    (hj : h.joinGame = true) :
    processInbound [joinGameMsg "A", joinGameMsg "B"] ib
      = some { ib with joinGameSecret := "B", wasJoinGame := true }
    ∧ ((Discord_RunCallbacks h { ib with joinGameSecret := "B", wasJoinGame := true }).2.filter
        CallbackCall.isJoinGame) = [CallbackCall.joinGame "B"] := by
  have hB : StringCopy 256 "B" = "B" := by decide
  refine ⟨?_, ?_⟩
  · simp only [processInbound, handleMessage_join, hB]
  · rw [runCallbacks_spec]
    simp [hj, List.filter_append, apply_ite (List.filter CallbackCall.isJoinGame),
      CallbackCall.isJoinGame]

/-- Witness for C4 at the freshly initialized mailboxes with only the
`joinGame` handler registered. -/
theorem c4_mailbox_collapse_witness :
    processInbound [joinGameMsg "A", joinGameMsg "B"] Inbox.init
      = some { Inbox.init with joinGameSecret := "B", wasJoinGame := true }
    ∧ ((Discord_RunCallbacks { DiscordEventHandlers.none with joinGame := true }
        { Inbox.init with joinGameSecret := "B", wasJoinGame := true }).2.filter
        CallbackCall.isJoinGame) = [CallbackCall.joinGame "B"] :=
  c4_mailbox_collapse Inbox.init { DiscordEventHandlers.none with joinGame := true } rfl

/-- C5 (refuted — code bug): a malformed message with an unrecognized or
missing event name is indeed silently ignored, but a message whose `evt` is
`"JOIN_GAME"`, `"SPECTATE_GAME"` (nonce absent) or `"ERROR"` (nonce
present) that lacks the expected `data`/`secret`/`code`/`message` fields
drives the classifier into an out-of-contract rapidjson access
(dereferencing `FindMember`'s end iterator / `operator[]` on a missing
member), modelled as `none` — not the error-free ignore the claim
requires. -/
theorem c5_malformed_inbound :
    handleMessage [("evt", JsonVal.str "JOIN_GAME")] Inbox.init = none
    ∧ handleMessage [("evt", JsonVal.str "SPECTATE_GAME")] Inbox.init = none
    ∧ handleMessage [("evt", JsonVal.str "ERROR"), ("nonce", JsonVal.str "1")] Inbox.init = none
    ∧ handleMessage [("evt", JsonVal.str "JOIN_GAME"), ("data", JsonVal.obj [])] Inbox.init = none
    ∧ handleMessage [("evt", JsonVal.str "SOME_UNKNOWN_EVENT")] Inbox.init = some Inbox.init
    ∧ handleMessage ([] : JsonDoc) Inbox.init = some Inbox.init
    ∧ handleMessage [("nonce", JsonVal.str "7")] Inbox.init = some Inbox.init :=
  ⟨rfl, rfl, rfl, rfl, rfl, rfl, rfl⟩

/-- C6 counterexample: in `Discord_Shutdown`, `Handlers = {}` executes
before the keep-running flag is cleared and before the I/O thread is
joined, so the Handlers table is mutated while the I/O thread is still
active — the claimed ordering (stop the thread first, mutate Handlers only
afterwards) does not hold. -/
theorem c6_shutdown_counterexample :
    Discord_Shutdown.indexOf ShutdownStep.clearHandlers
        < Discord_Shutdown.indexOf ShutdownStep.clearKeepRunning
    ∧ Discord_Shutdown.indexOf ShutdownStep.clearHandlers
        < Discord_Shutdown.indexOf ShutdownStep.joinIoThread := by
  decide

/-- C6 (amended): `Discord_Shutdown` first clears the connection callbacks
and the Handlers table, then stops the I/O driver thread — clears the
keep-running flag, raises the wake signal, joins the thread — and only
after the join releases the transport. -/
theorem c6_shutdown_order :
    Discord_Shutdown.indexOf ShutdownStep.clearOnConnect
        < Discord_Shutdown.indexOf ShutdownStep.clearOnDisconnect
    ∧ Discord_Shutdown.indexOf ShutdownStep.clearOnDisconnect
        < Discord_Shutdown.indexOf ShutdownStep.clearHandlers
    ∧ Discord_Shutdown.indexOf ShutdownStep.clearHandlers
        < Discord_Shutdown.indexOf ShutdownStep.clearKeepRunning
    ∧ Discord_Shutdown.indexOf ShutdownStep.clearKeepRunning
        < Discord_Shutdown.indexOf ShutdownStep.signalIOActivity
    ∧ Discord_Shutdown.indexOf ShutdownStep.signalIOActivity
        < Discord_Shutdown.indexOf ShutdownStep.joinIoThread
    ∧ Discord_Shutdown.indexOf ShutdownStep.joinIoThread
        < Discord_Shutdown.indexOf ShutdownStep.destroyConnection := by
  decide

/-- C9: `Discord_RunCallbacks` examines the mailboxes in the fixed order
error, disconnected, connected, presence-requested, join-game,
spectate-game; each flag is test-and-cleared (all flags are false
afterwards, payloads are untouched), and the handler of a kind is invoked,
with that mailbox's payload, exactly when its flag was set and the handler
is registered; a set flag with an unregistered handler is cleared without
an invocation. -/
theorem c9_dispatch_order (h : DiscordEventHandlers) (ib : Inbox) :
    (Discord_RunCallbacks h ib).1.gotErrorMessage = false
    ∧ (Discord_RunCallbacks h ib).1.wasJustDisconnected = false
    ∧ (Discord_RunCallbacks h ib).1.wasJustConnected = false
    ∧ (Discord_RunCallbacks h ib).1.wasPresenceRequested = false
    ∧ (Discord_RunCallbacks h ib).1.wasJoinGame = false
    ∧ (Discord_RunCallbacks h ib).1.wasSpectateGame = false
    ∧ (Discord_RunCallbacks h ib).1.joinGameSecret = ib.joinGameSecret
    ∧ (Discord_RunCallbacks h ib).1.spectateGameSecret = ib.spectateGameSecret
    ∧ (Discord_RunCallbacks h ib).1.lastErrorCode = ib.lastErrorCode
    ∧ (Discord_RunCallbacks h ib).1.lastErrorMessage = ib.lastErrorMessage
    ∧ (Discord_RunCallbacks h ib).1.lastDisconnectErrorCode = ib.lastDisconnectErrorCode
    ∧ (Discord_RunCallbacks h ib).1.lastDisconnectErrorMessage = ib.lastDisconnectErrorMessage
    ∧ (Discord_RunCallbacks h ib).2
        = (if ib.gotErrorMessage = true ∧ h.errored = true
            then [CallbackCall.errored ib.lastErrorCode ib.lastErrorMessage] else [])
          ++ (if ib.wasJustDisconnected = true ∧ h.disconnected = true
            then [CallbackCall.disconnected ib.lastDisconnectErrorCode ib.lastDisconnectErrorMessage] else [])
          ++ (if ib.wasJustConnected = true ∧ h.ready = true
            then [CallbackCall.ready] else [])
          ++ (if ib.wasPresenceRequested = true ∧ h.presenceRequested = true
            then [CallbackCall.presenceRequested] else [])
          ++ (if ib.wasJoinGame = true ∧ h.joinGame = true
            then [CallbackCall.joinGame ib.joinGameSecret] else [])
          ++ (if ib.wasSpectateGame = true ∧ h.spectateGame = true
            then [CallbackCall.spectateGame ib.spectateGameSecret] else []) := by
  rw [runCallbacks_spec]
  refine ⟨rfl, rfl, rfl, rfl, rfl, rfl, rfl, rfl, rfl, rfl, rfl, rfl, ?_⟩
  simp only [Bool.and_eq_true]

/-- Remove every top-level member with the given name from a document. -/
def JsonDoc.eraseMember (msg : JsonDoc) (name : String) : JsonDoc :=
  List.filter (fun p => !(p.1 == name)) msg

lemma FindMember_eraseMember_self (msg : JsonDoc) (name : String) :
    (msg.eraseMember name).FindMember name = none := by
  simp only [JsonDoc.eraseMember, JsonDoc.FindMember]
  induction msg with
  | nil => rfl
  | cons p rest ih =>
    obtain ⟨k, v⟩ := p
    rcases eq_or_ne k name with hp | hp
    · have hb : (k == name) = true := beq_iff_eq.mpr hp
      simpa [List.filter_cons, hb] using ih
    · have hb : (k == name) = false := beq_eq_false_iff_ne.mpr hp
      have hb' : (name == k) = false := beq_eq_false_iff_ne.mpr (Ne.symm hp)
      rw [List.filter_cons]
      simp only [hb, Bool.not_false]
      rw [if_pos trivial]
      simp only [List.lookup, hb']
      exact ih

lemma FindMember_eraseMember_ne (msg : JsonDoc) (key name : String)
    (hk : key ≠ name) :
    (msg.eraseMember name).FindMember key = msg.FindMember key := by
  simp only [JsonDoc.eraseMember, JsonDoc.FindMember]
  induction msg with
  | nil => rfl
  | cons p rest ih =>
    obtain ⟨k, v⟩ := p
    rcases eq_or_ne k name with hp | hp
    · have hb : (k == name) = true := beq_iff_eq.mpr hp
      have hkp : (key == k) = false := beq_eq_false_iff_ne.mpr (by rw [hp]; exact hk)
      rw [List.filter_cons]
      simp only [hb, Bool.not_true]
      rw [if_neg Bool.false_ne_true, ih]
      simp only [List.lookup, hkp]
    · have hb : (k == name) = false := beq_eq_false_iff_ne.mpr hp
      rw [List.filter_cons]
      simp only [hb, Bool.not_false]
      rw [if_pos trivial]
      simp only [List.lookup]
      cases hkey : (key == k) <;> simp [hkey, ih]

lemma handleEvt_congr (msg msg' : JsonDoc) (e : Option String) (ib : Inbox)
    (hd : msg.FindMember "data" = msg'.FindMember "data") :
    handleEvt msg e ib = handleEvt msg' e ib := by
  simp only [handleEvt, hd]

/-- C10: a decoded inbound message whose `nonce` member is present but not
string-valued is treated exactly as if the nonce were absent: it is
dispatched by event name through the nonce-absent branch. -/
theorem c10_nonstring_nonce (msg : JsonDoc) (ib : Inbox) (v : JsonVal)
    (hv : msg.FindMember "nonce" = some v) (hs : v.isString = false) :
    handleMessage msg ib = handleMessage (msg.eraseMember "nonce") ib := by
  have hevt : (msg.eraseMember "nonce").FindMember "evt" = msg.FindMember "evt" :=
    FindMember_eraseMember_ne msg "evt" "nonce" (by decide)
  have hdata : msg.FindMember "data" = (msg.eraseMember "nonce").FindMember "data" :=
    (FindMember_eraseMember_ne msg "data" "nonce" (by decide)).symm
  have hnonce : (msg.eraseMember "nonce").FindMember "nonce" = none :=
    FindMember_eraseMember_self msg "nonce"
  simp only [handleMessage, hv, hs, hnonce, hevt]
  exact handleEvt_congr msg (msg.eraseMember "nonce") _ ib hdata

set_option maxRecDepth 100000 in
/-- Witness for C10: a `JOIN_GAME` frame carrying a numeric nonce is
classified through the nonce-absent branch and still sets the join-game
mailbox with its secret. -/
theorem c10_nonstring_nonce_witness :
    handleMessage
        [("evt", JsonVal.str "JOIN_GAME"), ("nonce", JsonVal.num 3),
         ("data", JsonVal.obj [("secret", JsonVal.str "xyz")])] Inbox.init
      = handleMessage
          (JsonDoc.eraseMember
            [("evt", JsonVal.str "JOIN_GAME"), ("nonce", JsonVal.num 3),
             ("data", JsonVal.obj [("secret", JsonVal.str "xyz")])] "nonce") Inbox.init
    ∧ handleMessage
        [("evt", JsonVal.str "JOIN_GAME"), ("nonce", JsonVal.num 3),
         ("data", JsonVal.obj [("secret", JsonVal.str "xyz")])] Inbox.init
      = some { Inbox.init with joinGameSecret := "xyz", wasJoinGame := true } :=
  ⟨c10_nonstring_nonce _ Inbox.init (JsonVal.num 3) rfl rfl, by decide⟩

/-- The event names `Connection->onConnect` subscribes to, in source order,
one per event kind whose handler is registered. -/
def subscribedEvents (h : DiscordEventHandlers) : List String :=
  (if h.presenceRequested then ["PRESENCE_REQUESTED"] else [])
  ++ (if h.joinGame then ["JOIN_GAME"] else [])
  ++ (if h.spectateGame then ["SPECTATE_GAME"] else [])

/-- Folding `RegisterForEvent` over a list of event names. -/
def registerAll (names : List String) (st : CoreState) : CoreState :=
  names.foldl (fun st e => (RegisterForEvent e st).1) st

/-- The subscribe frames produced by registering the given names starting
at the given nonce. -/
def subMsgs (nonce : Nat) : List String → List OutMsg
  | [] => []
  | e :: rest => OutMsg.subscribe nonce e :: subMsgs (nonce + 1) rest

lemma subMsgs_length (n : Nat) (names : List String) :
    (subMsgs n names).length = names.length := by
  induction names generalizing n with
  | nil => rfl
  | cons e rest ih => simp [subMsgs, ih]

lemma subMsgs_get (n : Nat) (names : List String) (i : Nat) (hi : i < names.length)
    (hi' : i < (subMsgs n names).length) :
    (subMsgs n names).get ⟨i, hi'⟩ = OutMsg.subscribe (n + i) (names.get ⟨i, hi⟩) := by
  induction names generalizing n i with
  | nil => exact absurd hi (by simp)
  | cons e rest ih =>
    match i with
    | 0 => simp [subMsgs]
    | Nat.succ i' =>
      have hr : i' < rest.length := by simpa using hi
      have hr' : i' < (subMsgs (n + 1) rest).length := by
        rw [subMsgs_length]; exact hr
      have := ih (n + 1) i' hr hr'
      simp only [subMsgs, List.get_cons_succ, this]
      congr 1
      omega

lemma RegisterForEvent_succ (e : String) (st : CoreState)
    (h : st.queue.pendingSends < MessageQueueSize) :
    (RegisterForEvent e st).1
      = { st with queue := (sendQueueEnqueue (OutMsg.subscribe st.nonce e) st.queue).1
                  nonce := st.nonce + 1 } := by
  simp only [RegisterForEvent, sendQueueEnqueue, SendQueueGetNextAddMessage,
    if_neg (Nat.not_le.2 h)]

lemma registerAll_eq (names : List String) (st : CoreState)
    (hcap : st.queue.pendingSends + names.length ≤ MessageQueueSize) :
    (registerAll names st).queue = enqueueAll (subMsgs st.nonce names) st.queue
    ∧ (registerAll names st).nonce = st.nonce + names.length
    ∧ (registerAll names st).inbox = st.inbox
    ∧ (registerAll names st).reconnectTimeMs = st.reconnectTimeMs
    ∧ (registerAll names st).nextConnect = st.nextConnect
    ∧ (registerAll names st).pid = st.pid
    ∧ (registerAll names st).handlers = st.handlers := by
  induction names generalizing st with
  | nil => exact ⟨rfl, rfl, rfl, rfl, rfl, rfl, rfl⟩
  | cons e rest ih =>
    have hlt : st.queue.pendingSends < MessageQueueSize := by
      simp only [List.length_cons] at hcap; omega
    have hreg := RegisterForEvent_succ e st hlt
    have hq1 : (RegisterForEvent e st).1.queue.pendingSends = st.queue.pendingSends + 1 := by
      rw [hreg, sendQueueEnqueue_succ _ _ hlt]
    have hcap1 : (RegisterForEvent e st).1.queue.pendingSends + rest.length
        ≤ MessageQueueSize := by
      rw [hq1]; simp only [List.length_cons] at hcap; omega
    have ih' := ih (RegisterForEvent e st).1 hcap1
    have hfold : registerAll (e :: rest) st = registerAll rest (RegisterForEvent e st).1 := by
      simp [registerAll]
    have hqueue1 : (RegisterForEvent e st).1.queue
        = (sendQueueEnqueue (OutMsg.subscribe st.nonce e) st.queue).1 := by
      rw [hreg]
    have hnonce1 : (RegisterForEvent e st).1.nonce = st.nonce + 1 := by
      rw [hreg]
    refine ⟨?_, ?_, ?_, ?_, ?_, ?_, ?_⟩
    · rw [hfold, ih'.1, hqueue1, hnonce1]
      simp [subMsgs, enqueueAll]
    · rw [hfold, ih'.2.1, hnonce1, List.length_cons]
      omega
    · rw [hfold, ih'.2.2.1, hreg]
    · rw [hfold, ih'.2.2.2.1, hreg]
    · rw [hfold, ih'.2.2.2.2.1, hreg]
    · rw [hfold, ih'.2.2.2.2.2.1, hreg]
    · rw [hfold, ih'.2.2.2.2.2.2, hreg]

lemma RegisterForEvent_handlers (e : String) (st : CoreState) :
    (RegisterForEvent e st).1.handlers = st.handlers := by
  unfold RegisterForEvent
  rcases hm : SendQueueGetNextAddMessage st.queue with ⟨o, q'⟩
  cases o <;> simp

lemma Connection_onConnect_eq (st : CoreState) :
    Connection_onConnect st
      = registerAll (subscribedEvents st.handlers)
          { st with inbox := { st.inbox with wasJustConnected := true }
                    reconnectTimeMs := st.reconnectTimeMs.reset } := by
  cases hp : st.handlers.presenceRequested <;>
    cases hj : st.handlers.joinGame <;>
      cases hs : st.handlers.spectateGame <;>
        simp [Connection_onConnect, registerAll, subscribedEvents, hp, hj, hs,
          RegisterForEvent_handlers]

/-- C7 (amended): when the transport reports connect success and the
outbound queue has room for the subscribe messages, `Connection->onConnect`
resets the backoff to its floor, sets the connected mailbox, and enqueues
exactly one subscribe frame per registered event kind among
presence-requested / join-game / spectate-game, in that order, each
carrying a fresh monotonically increasing nonce; nothing is enqueued for an
unregistered kind.  (Without the room hypothesis a subscribe whose
reservation fails is silently dropped — see the counterexample.) -/
theorem c7_connect_subscribes (st : CoreState)
    (hcap : st.queue.pendingSends + (subscribedEvents st.handlers).length
        ≤ MessageQueueSize)
    (hA : st.queue.nextAdd < UINT_MOD) :
    (Connection_onConnect st).reconnectTimeMs = st.reconnectTimeMs.reset
    ∧ (Connection_onConnect st).inbox.wasJustConnected = true
    ∧ (Connection_onConnect st).nonce = st.nonce + (subscribedEvents st.handlers).length
    ∧ (Connection_onConnect st).queue.pendingSends
        = st.queue.pendingSends + (subscribedEvents st.handlers).length
    ∧ ∀ i, (hi : i < (subscribedEvents st.handlers).length) →
        (Connection_onConnect st).queue.slots ((st.queue.nextAdd + i) % MessageQueueSize)
          = OutMsg.subscribe (st.nonce + i) ((subscribedEvents st.handlers).get ⟨i, hi⟩) := by
  rw [Connection_onConnect_eq st]
  have hra := registerAll_eq (subscribedEvents st.handlers)
    { st with inbox := { st.inbox with wasJustConnected := true }
              reconnectTimeMs := st.reconnectTimeMs.reset } hcap
  obtain ⟨hq, hn, hib, hrt, _, _, _⟩ := hra
  have hqa := enqueueAll_spec (subMsgs st.nonce (subscribedEvents st.handlers)) st.queue
    (by rw [subMsgs_length]; exact hcap) hA
  refine ⟨by rw [hrt], by rw [hib], by rw [hn], ?_, ?_⟩
  · rw [hq]
    show (enqueueAll (subMsgs st.nonce (subscribedEvents st.handlers)) st.queue).pendingSends = _
    rw [hqa.1, subMsgs_length]
  · intro i hi
    rw [hq]
    have hi' : i < (subMsgs st.nonce (subscribedEvents st.handlers)).length := by
      rw [subMsgs_length]; exact hi
    have := hqa.2.2.2.1 i hi'
    rw [this]
    exact subMsgs_get st.nonce (subscribedEvents st.handlers) i hi hi'

/-- C7 counterexample: with the outbound queue already saturated
(`pendingSends = 8`) and a `joinGame` handler registered, connect success
enqueues no subscribe at all — `pendingSends`, `nextAdd` and the nonce are
unchanged — because the subscribe's reservation fails and the message is
dropped, contradicting the claim that exactly one subscribe is enqueued per
registered kind. -/
theorem c7_connect_counterexample :
    ({ CoreState.init 0 0 { DiscordEventHandlers.none with joinGame := true } with
        queue := { SendQueueState.init with pendingSends := 8 } } : CoreState).handlers.joinGame
        = true
    ∧ (Connection_onConnect
        { CoreState.init 0 0 { DiscordEventHandlers.none with joinGame := true } with
          queue := { SendQueueState.init with pendingSends := 8 } }).queue.pendingSends = 8
    ∧ (Connection_onConnect
        { CoreState.init 0 0 { DiscordEventHandlers.none with joinGame := true } with
          queue := { SendQueueState.init with pendingSends := 8 } }).queue.nextAdd = 0
    ∧ (Connection_onConnect
        { CoreState.init 0 0 { DiscordEventHandlers.none with joinGame := true } with
          queue := { SendQueueState.init with pendingSends := 8 } }).nonce = 1 := by
  refine ⟨rfl, rfl, rfl, rfl⟩

/-- Witness for C7 with presence-requested and join-game handlers
registered on a fresh state: two subscribes land in slots 0 and 1 with
nonces 1 and 2, and the nonce counter ends at 3. -/
theorem c7_connect_subscribes_witness :
    (Connection_onConnect (CoreState.init 5 0
        { DiscordEventHandlers.none with presenceRequested := true, joinGame := true })).reconnectTimeMs
      = (CoreState.init 5 0
        { DiscordEventHandlers.none with presenceRequested := true, joinGame := true }).reconnectTimeMs.reset
    ∧ (Connection_onConnect (CoreState.init 5 0
        { DiscordEventHandlers.none with presenceRequested := true, joinGame := true })).inbox.wasJustConnected
      = true
    ∧ (Connection_onConnect (CoreState.init 5 0
        { DiscordEventHandlers.none with presenceRequested := true, joinGame := true })).nonce = 3
    ∧ (Connection_onConnect (CoreState.init 5 0
        { DiscordEventHandlers.none with presenceRequested := true, joinGame := true })).queue.pendingSends = 2
    ∧ (Connection_onConnect (CoreState.init 5 0
        { DiscordEventHandlers.none with presenceRequested := true, joinGame := true })).queue.slots 0
      = OutMsg.subscribe 1 "PRESENCE_REQUESTED"
    ∧ (Connection_onConnect (CoreState.init 5 0
        { DiscordEventHandlers.none with presenceRequested := true, joinGame := true })).queue.slots 1
      = OutMsg.subscribe 2 "JOIN_GAME" := by
  have h := c7_connect_subscribes (CoreState.init 5 0
    { DiscordEventHandlers.none with presenceRequested := true, joinGame := true })
    (by decide) (by decide)
  exact ⟨h.1, h.2.1, h.2.2.1.trans (by decide), h.2.2.2.1.trans (by decide),
    (h.2.2.2.2 0 (by decide)).trans (by decide),
    (h.2.2.2.2 1 (by decide)).trans (by decide)⟩

lemma tick_notOpen_early (st : CoreState) (inbound : List JsonDoc) (t : Nat)
    (h : t < st.nextConnect) :
    Discord_UpdateConnection t false inbound st
      = some (st, { openAttempt := false, writes := [] }) := by
  simp only [Discord_UpdateConnection, Bool.not_false, if_true]
  rw [if_neg (by omega)]

lemma tick_notOpen_due (st : CoreState) (inbound : List JsonDoc) (t : Nat)
    (h : st.nextConnect ≤ t) :
    Discord_UpdateConnection t false inbound st
      = some (UpdateReconnectTime t st, { openAttempt := true, writes := [] }) := by
  simp only [Discord_UpdateConnection, Bool.not_false, if_true]
  rw [if_pos (by omega)]

/-- C8: on every I/O tick while the transport reports not-open, no open
attempt is issued before `NextConnect`; once the clock reaches or passes
`NextConnect`, the tick first recomputes `NextConnect` by advancing (not
resetting) the backoff and then opens; and after a disconnect at time `T`
with computed delay `D = nextDelay()`, `NextConnect = T + D` and no tick
strictly before `T + D` attempts to connect. -/
theorem c8_reconnect_timing (st : CoreState) (inbound : List JsonDoc)
    (T t : Nat) (err : Int) (msg : String) :
    (t < st.nextConnect →
      Discord_UpdateConnection t false inbound st
        = some (st, { openAttempt := false, writes := [] }))
    ∧ (st.nextConnect ≤ t →
      Discord_UpdateConnection t false inbound st
        = some (UpdateReconnectTime t st, { openAttempt := true, writes := [] })
      ∧ (UpdateReconnectTime t st).nextConnect = t + st.reconnectTimeMs.nextDelay.1
      ∧ (UpdateReconnectTime t st).reconnectTimeMs = st.reconnectTimeMs.advance)
    ∧ ((Connection_onDisconnect T err msg st).nextConnect
        = T + st.reconnectTimeMs.nextDelay.1
      ∧ ∀ t', t' < T + st.reconnectTimeMs.nextDelay.1 →
        Discord_UpdateConnection t' false inbound (Connection_onDisconnect T err msg st)
          = some (Connection_onDisconnect T err msg st,
                  { openAttempt := false, writes := [] })) := by
  refine ⟨fun h => tick_notOpen_early st inbound t h,
    fun h => ⟨tick_notOpen_due st inbound t h, rfl, rfl⟩, rfl, fun t' h => ?_⟩
  exact tick_notOpen_early _ inbound t' h

/-- Witness for C8 on the fresh state (`NextConnect = 1000`): a tick at 500
does not open; a tick at 1000 opens and reschedules to 1500; after a
disconnect at 2000 the next attempt time is 2500 and a tick at 2400 does
not open. -/
theorem c8_reconnect_timing_witness :
    Discord_UpdateConnection 500 false []
        (CoreState.init 1000 0 DiscordEventHandlers.none)
      = some (CoreState.init 1000 0 DiscordEventHandlers.none,
              { openAttempt := false, writes := [] })
    ∧ Discord_UpdateConnection 1000 false []
        (CoreState.init 1000 0 DiscordEventHandlers.none)
      = some (UpdateReconnectTime 1000 (CoreState.init 1000 0 DiscordEventHandlers.none),
              { openAttempt := true, writes := [] })
    ∧ (UpdateReconnectTime 1000 (CoreState.init 1000 0 DiscordEventHandlers.none)).nextConnect
      = 1500
    ∧ (Connection_onDisconnect 2000 0 "pipe closed"
        (CoreState.init 1000 0 DiscordEventHandlers.none)).nextConnect = 2500
    ∧ Discord_UpdateConnection 2400 false []
        (Connection_onDisconnect 2000 0 "pipe closed"
          (CoreState.init 1000 0 DiscordEventHandlers.none))
      = some (Connection_onDisconnect 2000 0 "pipe closed"
                (CoreState.init 1000 0 DiscordEventHandlers.none),
              { openAttempt := false, writes := [] }) := by
  have h := c8_reconnect_timing (CoreState.init 1000 0 DiscordEventHandlers.none) []
    2000 1000 0 "pipe closed"
  have h500 := c8_reconnect_timing (CoreState.init 1000 0 DiscordEventHandlers.none) []
    2000 500 0 "pipe closed"
  exact ⟨h500.1 (by decide), (h.2.1 (by decide)).1,
    ((h.2.1 (by decide)).2.1).trans (by decide),
    h.2.2.1.trans (by decide),
    h.2.2.2 2400 (by decide)⟩
